import Mathlib

/-!
Verification development for the HisabX bill-ingestion core: a shallow
embedding of the OCR field extractors, the hybrid categorization cascade,
the duplicate-upload check and the transaction classifier, with theorems
settling the frozen specification claims.

Strings are modelled as lists of characters, Python Decimal and float
values as rationals, and the Python regular-expression patterns of the
source as explicit pattern ASTs interpreted by a backtracking matcher
with Python re search semantics (leftmost start, ordered alternation,
greedy or lazy repetition, word boundaries).
-/

namespace HX

abbrev Str := List Char

/-- ASCII lower-casing of one character, as Python str.lower on the
character sets appearing in the source. -/
def lowerC (c : Char) : Char :=
  if 'A' ≤ c ∧ c ≤ 'Z' then Char.ofNat (c.toNat + 32) else c

/-- ASCII upper-casing of one character. -/
def upperC (c : Char) : Char :=
  if 'a' ≤ c ∧ c ≤ 'z' then Char.ofNat (c.toNat - 32) else c

def isDigitC (c : Char) : Bool := '0' ≤ c ∧ c ≤ '9'

def isLowerA (c : Char) : Bool := 'a' ≤ c ∧ c ≤ 'z'

def isUpperA (c : Char) : Bool := 'A' ≤ c ∧ c ≤ 'Z'

def isAlphaC (c : Char) : Bool := isLowerA c || isUpperA c

/-- Python regex whitespace class. -/
def isSpaceC (c : Char) : Bool :=
  c = ' ' || c = '\t' || c = '\n' || c = '\r' || c = Char.ofNat 11 || c = Char.ofNat 12

/-- Python regex word-character class (ASCII). -/
def isWordC (c : Char) : Bool := isAlphaC c || isDigitC c || c = '_'

def lowerL (s : Str) : Str := s.map lowerC

def upperL (s : Str) : Str := s.map upperC

/-- Python str.strip. -/
def stripL (s : Str) : Str :=
  ((s.dropWhile isSpaceC).reverse.dropWhile isSpaceC).reverse

def ofS (s : String) : Str := s.toList

/-- Does the first list occur as a leading segment of the second. -/
def startsL : Str → Str → Bool
  | [], _ => true
  | _ :: _, [] => false
  | a :: as, b :: bs => a = b && startsL as bs

/-- Python substring containment: needle in hay. -/
def containsL (needle : Str) : Str → Bool
  | [] => startsL needle []
  | c :: t => startsL needle (c :: t) || containsL needle t

/-- Python str.split with no argument: split on whitespace runs, dropping
empty pieces. -/
def pySplitAux : Str → Str → List Str
  | [], acc => if acc.isEmpty then [] else [acc.reverse]
  | c :: t, acc =>
    if isSpaceC c then
      if acc.isEmpty then pySplitAux t [] else acc.reverse :: pySplitAux t []
    else pySplitAux t (c :: acc)

def pySplit (s : Str) : List Str := pySplitAux s []

/-- Python str.split on a one-character separator. -/
def splitOnC (sep : Char) : Str → List Str
  | [] => [[]]
  | c :: t =>
    if c = sep then [] :: splitOnC sep t
    else
      match splitOnC sep t with
      | [] => [[c]]
      | w :: r => (c :: w) :: r

def splitNl : Str → List Str := splitOnC '\n'

/-- Digits to a natural number. -/
def digitsToNat (s : Str) : Nat :=
  s.foldl (fun a c => 10 * a + (c.toNat - '0'.toNat)) 0

/-- Value of a captured amount token: thousands separators stripped and
the digit string read as an exact decimal, as Decimal in the source. -/
def decOf (s : Str) : ℚ :=
  let cs := s.filter (fun c => c ≠ ',')
  let ip := cs.takeWhile isDigitC
  let rest := cs.dropWhile isDigitC
  let fp :=
    match rest with
    | '.' :: t => t.takeWhile isDigitC
    | _ => []
  (digitsToNat ip : ℚ) + (digitsToNat fp : ℚ) / ((10 : ℚ) ^ fp.length)

/-! ## Regular-expression engine

A small AST covering the constructs used by the patterns in the source,
with a fuel-bounded continuation-passing matcher implementing Python re
semantics: ordered alternation, greedy and lazy counted repetition, and
word boundaries.  The matcher threads the previous character so that
boundaries behave as in the original string context. -/

inductive RE where
  | eps : RE
  | cls (p : Char → Bool) : RE
  | seq (a b : RE) : RE
  | alt (a b : RE) : RE
  | rep (a : RE) (lo : Nat) (hi : Option Nat) (lazy : Bool) : RE
  | bnd : RE

def chr (c : Char) : RE := .cls (fun x => x = c)

def strRE (s : String) : RE := (s.toList.map chr).foldr .seq .eps

def seqs (l : List RE) : RE := l.foldr .seq .eps

def alts : List RE → RE
  | [] => .cls (fun _ => false)
  | [a] => a
  | a :: t => .alt a (alts t)

def star (a : RE) : RE := .rep a 0 none false

def plus (a : RE) : RE := .rep a 1 none false

def opt (a : RE) : RE := .rep a 0 (some 1) false

def dig : RE := .cls isDigitC

def wsS : RE := star (.cls isSpaceC)

def wsP : RE := plus (.cls isSpaceC)

def orO {α : Type} (x : Option α) (g : Unit → Option α) : Option α :=
  match x with
  | some v => some v
  | none => g ()

def atBnd (pv : Option Char) (s : Str) : Bool :=
  (match pv with | some c => isWordC c | none => false) !=
    (match s with | c :: _ => isWordC c | [] => false)

def mat {α : Type} : Nat → RE → Option Char → Str → (Option Char → Str → Option α) → Option α
  | 0, _, _, _, _ => none
  | f + 1, r, pv, s, k =>
    match r with
    | .eps => k pv s
    | .cls p =>
      match s with
      | [] => none
      | c :: t => if p c then k (some c) t else none
    | .seq a b => mat f a pv s (fun pv2 s2 => mat f b pv2 s2 k)
    | .alt a b => orO (mat f a pv s k) (fun _ => mat f b pv s k)
    | .bnd => if atBnd pv s then k pv s else none
    | .rep a lo hi lz =>
      match lo with
      | lo' + 1 =>
        mat f a pv s (fun pv2 s2 => mat f (.rep a lo' (hi.map (· - 1)) lz) pv2 s2 k)
      | 0 =>
        match hi with
        | some 0 => k pv s
        | _ =>
          let more := fun (_ : Unit) =>
            mat f a pv s (fun pv2 s2 => mat f (.rep a 0 (hi.map (· - 1)) lz) pv2 s2 k)
          if lz then orO (k pv s) more else orO (more ()) (fun _ => k pv s)

/-- Fuel bound: generous in the input length, enough for every pattern of
the source on any input. -/
def fuelFor (s : Str) : Nat := 32 * (s.length + 2) + 256

/-- A search pattern: a prefix part, one capturing group, and a suffix
part, mirroring the shape of every grouped pattern in the source. -/
structure Pat where
  pre : RE
  grp : RE
  post : RE := .eps

structure MRes where
  cap : Str
  tail : Str
  pvEnd : Option Char
deriving Repr, DecidableEq

/-- Try to match the pattern anchored at the current position. -/
def matchAt (P : Pat) (pv : Option Char) (s : Str) : Option MRes :=
  mat (fuelFor s) P.pre pv s (fun pv1 s1 =>
    mat (fuelFor s) P.grp pv1 s1 (fun pv2 s2 =>
      mat (fuelFor s) P.post pv2 s2 (fun pv3 s3 =>
        some ⟨s1.take (s1.length - s2.length), s3, pv3⟩)))

/-- Python re.search: leftmost matching start position wins. -/
def searchIn (P : Pat) : Option Char → Str → Option MRes
  | pv, s =>
    match matchAt P pv s with
    | some m => some m
    | none =>
      match s with
      | [] => none
      | c :: t => searchIn P (some c) t

def searchP (P : Pat) (s : Str) : Option MRes := searchIn P none s

/-- Python re.finditer captures: non-overlapping matches, scanning left to
right and resuming after each match. -/
def allCapsF : Nat → Pat → Option Char → Str → List Str
  | 0, _, _, _ => []
  | f + 1, P, pv, s =>
    match matchAt P pv s with
    | some m =>
      if m.tail.length < s.length then m.cap :: allCapsF f P m.pvEnd m.tail
      else [m.cap]
    | none =>
      match s with
      | [] => []
      | c :: t => allCapsF f P (some c) t

def allCaps (P : Pat) (s : Str) : List Str := allCapsF (s.length + 1) P none s

/-- Python re.sub with empty replacement: delete every non-overlapping
match of the pattern, scanning left to right. -/
def subAllF : Nat → Pat → Option Char → Str → Str
  | 0, _, _, s => s
  | f + 1, P, pv, s =>
    match matchAt P pv s with
    | some m =>
      if m.tail.length < s.length then subAllF f P m.pvEnd m.tail
      else s
    | none =>
      match s with
      | [] => []
      | c :: t => c :: subAllF f P (some c) t

def subAll (P : Pat) (s : Str) : Str := subAllF (s.length + 1) P none s

/-! ## Amount extraction (ocr_processor.extract_amount, words_to_number) -/

/-- The two currency signs accepted by the amount patterns. -/
def cur2 : RE := .cls (fun c => c = '$' || c = '₹')

/-- The numeric token of the amount patterns:
digits, optional comma-separated thousands groups, optional decimal part. -/
def numRE : RE := seqs [plus dig, star (seqs [chr ',', dig, dig, dig]), opt (chr '.'), star dig]

/-- Pattern: grand total, optional colon and currency sign, amount. -/
def grandTotalPat : Pat :=
  { pre := seqs [strRE "grand", wsS, strRE "total", wsS, opt (chr ':'), wsS, opt cur2, wsS],
    grp := numRE }

/-- Pattern: total amount, optional colon and rupee sign, amount. -/
def totalAmountPat : Pat :=
  { pre := seqs [strRE "total", wsS, strRE "amount", wsS, opt (chr ':'), wsS, opt (chr '₹'), wsS],
    grp := numRE }

/-- Pattern: the In Words section, capturing a run of letters and spaces. -/
def inWordsPat : Pat :=
  { pre := seqs [strRE "in", wsP, strRE "word", opt (chr 's'), opt (chr ':'), wsS],
    grp := plus (.cls (fun c => isLowerA c || isSpaceC c)) }

/-- Pattern: total, a run of pipes or spaces, amount. -/
def totalBarPat : Pat :=
  { pre := seqs [strRE "total", wsS, plus (.cls (fun c => c = '|' || isSpaceC c))],
    grp := numRE }

/-- The AMOUNT_PATTERNS list of the source, in order. -/
def amountPats : List Pat :=
  [ { pre := seqs [strRE "total", wsS, strRE "amount", wsS, opt (chr ':'), wsS, opt cur2, wsS],
      grp := numRE },
    grandTotalPat,
    { pre := seqs [strRE "total", wsS, opt (chr ':'), wsS, cur2, wsS], grp := numRE },
    { pre := seqs [chr '$', wsS], grp := numRE },
    { pre := seqs [strRE "total", wsS, opt (chr ':'), wsS, opt (chr '₹'), opt (chr '$')],
      grp := numRE },
    { pre := seqs [strRE "amount", wsS, opt (chr ':'), wsS, opt (chr '₹'), opt (chr '$')],
      grp := numRE },
    { pre := seqs [chr '₹', wsS], grp := numRE } ]

/-- The word-to-number table of words_to_number. -/
def wordNumList : List (String × Nat) :=
  [("zero", 0), ("one", 1), ("two", 2), ("three", 3), ("four", 4), ("five", 5),
   ("six", 6), ("seven", 7), ("eight", 8), ("nine", 9), ("ten", 10),
   ("eleven", 11), ("twelve", 12), ("thirteen", 13), ("fourteen", 14), ("fifteen", 15),
   ("sixteen", 16), ("seventeen", 17), ("eighteen", 18), ("nineteen", 19), ("twenty", 20),
   ("thirty", 30), ("forty", 40), ("fifty", 50), ("sixty", 60), ("seventy", 70),
   ("eighty", 80), ("ninety", 90), ("hundred", 100), ("thousand", 1000),
   ("lakh", 100000), ("lakhs", 100000), ("million", 1000000)]

def wordNum (w : Str) : Option Nat :=
  (wordNumList.find? (fun p => ofS p.1 = w)).map (fun p => p.2)

/-- Pattern deleting the filler words rupees, rupee, only, and. -/
def fillerPat : Pat :=
  { pre := .bnd,
    grp := alts [seqs [strRE "rupee", opt (chr 's')], strRE "only", strRE "and"],
    post := .bnd }

/-- words_to_number: filler words removed, then an accumulator walk over the
remaining words; returns none unless the accumulated total is positive. -/
def wordsToNumber (s : Str) : Option Nat :=
  let cleaned := stripL (subAll fillerPat s)
  let step := fun (tc : Nat × Nat) (w : Str) =>
    match wordNum (lowerL (stripL w)) with
    | none => tc
    | some n =>
      if n ≥ 1000 then (tc.1 + (if tc.2 = 0 then 1 else tc.2) * n, 0)
      else if n = 100 then (tc.1, (if tc.2 = 0 then 1 else tc.2) * 100)
      else (tc.1, tc.2 + n)
  let tc := (pySplit cleaned).foldl step (0, 0)
  let tot := tc.1 + tc.2
  if tot > 0 then some tot else none

def amountStepGrand (t : Str) : Option ℚ := (searchP grandTotalPat t).map (fun m => decOf m.cap)

def amountStepTA (t : Str) : Option ℚ := (searchP totalAmountPat t).map (fun m => decOf m.cap)

def amountStepWords (t : Str) : Option ℚ :=
  (searchP inWordsPat t).bind (fun m => (wordsToNumber m.cap).map (fun n => (n : ℚ)))

def amountStepBar (t : Str) : Option ℚ := (searchP totalBarPat t).map (fun m => decOf m.cap)

/-- Last tier of extract_amount: collect every match of every pattern in
AMOUNT_PATTERNS and return the largest value found. -/
def amountStepMax (t : Str) : Option ℚ :=
  match ((amountPats.map (fun P => allCaps P t)).flatten).map decOf with
  | [] => none
  | v :: vs => some (vs.foldl max v)

/-- extract_amount: Grand Total, then Total Amount, then the In Words
conversion, then Total with separator, then the maximum over the pattern
library. -/
def extract_amount (t : Str) : Option ℚ :=
  orO (amountStepGrand t) (fun _ =>
    orO (amountStepTA t) (fun _ =>
      orO (amountStepWords t) (fun _ =>
        orO (amountStepBar t) (fun _ => amountStepMax t))))

/-! ## Tax, CGST, SGST, subtotal extraction -/

/-- Percentage token of the first two tax patterns. -/
def pctRE : RE := seqs [plus dig, opt (chr '.'), star dig, chr '%']

def cgstPat : Pat :=
  { pre := seqs [strRE "cgst", wsS, strRE "am", opt (chr 't'), wsS, opt (chr ':'), wsS,
      opt (chr '₹'), wsS],
    grp := numRE }

def sgstPat : Pat :=
  { pre := seqs [strRE "sgst", wsS, strRE "am", opt (chr 't'), wsS, opt (chr ':'), wsS,
      opt (chr '₹'), wsS],
    grp := numRE }

/-- The TAX_PATTERNS list of the source, in order. -/
def taxPats : List Pat :=
  [ { pre := seqs [strRE "vat", wsS, pctRE, wsS, opt cur2, wsS], grp := numRE },
    { pre := seqs [alts [seqs [strRE "sales", wsS, strRE "tax"], strRE "tax"], wsS, pctRE,
        wsS, opt cur2, wsS], grp := numRE },
    { pre := seqs [alts [strRE "cgst", strRE "sgst"], wsS, strRE "am", opt (chr 't'), wsS,
        opt (chr ':'), wsS, opt (chr '₹'), wsS], grp := numRE },
    { pre := seqs [opt (seqs [strRE "total", wsS]), alts [strRE "gst", strRE "tax"], wsS,
        opt (chr ':'), wsS, opt cur2, wsS], grp := numRE },
    { pre := seqs [strRE "tax", wsS, opt (chr ':'), wsS, opt (chr '$')], grp := numRE },
    { pre := seqs [strRE "vat", wsS, opt (chr ':'), wsS, opt (chr '$')], grp := numRE } ]

/-- First pattern of the list with a match wins; the captured token always
parses as a decimal. -/
def firstCapQ : List Pat → Str → Option ℚ
  | [], _ => none
  | P :: ps, t =>
    match searchP P t with
    | some m => some (decOf m.cap)
    | none => firstCapQ ps t

def extract_cgst (t : Str) : Option ℚ := (searchP cgstPat t).map (fun m => decOf m.cap)

def extract_sgst (t : Str) : Option ℚ := (searchP sgstPat t).map (fun m => decOf m.cap)

/-- Python truthiness of an optional Decimal: present and nonzero. -/
def pyTruthyQ : Option ℚ → Bool
  | some q => decide (q ≠ 0)
  | none => false

/-- extract_tax: the CGST and SGST amounts are summed when both are truthy
(present and nonzero, by Python truthiness); otherwise the general tax
patterns are scanned, first match wins. -/
def extract_tax (t : Str) : Option ℚ :=
  let c := extract_cgst t
  let s := extract_sgst t
  if pyTruthyQ c && pyTruthyQ s then some (c.getD 0 + s.getD 0)
  else firstCapQ taxPats t

def subtotalPats : List Pat :=
  [ { pre := seqs [strRE "sub-total", wsS, opt (chr ':'), wsS, opt (chr '₹'), wsS],
      grp := numRE },
    { pre := seqs [strRE "subtotal", wsS, opt (chr ':'), wsS, opt (chr '₹'), wsS],
      grp := numRE },
    { pre := seqs [strRE "taxable", wsS, opt (chr ':'), wsS, opt (chr '₹'), wsS],
      grp := numRE } ]

def extract_subtotal (t : Str) : Option ℚ := firstCapQ subtotalPats t

/-! ## GSTIN extraction (on the raw, uncased text) -/

def upAl : RE := .cls (fun c => isUpperA c || isDigitC c)

def upC : RE := .cls isUpperA

def repN (r : RE) (n : Nat) : RE := .rep r n (some n) false

def gstinPat1 : Pat :=
  { pre := .bnd,
    grp := seqs [dig, dig, repN upC 5, repN dig 4, upC, upAl, chr 'Z', upAl],
    post := .bnd }

def gstinPat2 : Pat :=
  { pre := .bnd, grp := seqs [dig, dig, repN upAl 13], post := .bnd }

def extract_gstin (t : Str) : Option Str :=
  match searchP gstinPat1 t with
  | some m => some m.cap
  | none => (searchP gstinPat2 t).map (fun m => m.cap)

/-! ## Invoice number extraction -/

def invCls : RE :=
  .cls (fun c => isLowerA c || isUpperA c || isDigitC c || c = '-' || c = '_' || c = '/' || c = '.')

def alnumCls : RE := .cls (fun c => isLowerA c || isUpperA c || isDigitC c)

def alphaCls : RE := .cls (fun c => isLowerA c || isUpperA c)

def gtColon : RE := .cls (fun c => c = '>' || c = ':')

/-- The ten invoice-number patterns of the source, in order; the last is
the loose Bill fallback with a lazy gap. -/
def invPats : List Pat :=
  [ { pre := seqs [strRE "invoice", wsP, strRE "no", opt (chr '.'), wsS, gtColon, wsS],
      grp := plus invCls },
    { pre := seqs [strRE "invoice", wsP, strRE "number", wsS, opt (chr ':'), wsS],
      grp := plus invCls },
    { pre := seqs [strRE "bill", wsS, strRE "no", opt (chr '.'), wsS, opt gtColon, wsS],
      grp := plus invCls },
    { pre := seqs [strRE "invoice", wsS, chr '#', wsS, opt (chr ':'), wsS],
      grp := plus invCls },
    { pre := seqs [strRE "inv", opt (chr '.'), wsS, strRE "no", opt (chr '.'), wsS,
        opt gtColon, wsS],
      grp := plus invCls },
    { pre := seqs [strRE "invoice", wsS, alts [strRE "no", strRE "num"], opt (chr '.'), wsS,
        opt (chr ':'), wsS],
      grp := plus invCls },
    { pre := seqs [strRE "bill", wsS, alts [strRE "number", chr '#'], opt (chr '.'), wsS,
        opt (chr ':'), wsS],
      grp := plus invCls },
    { pre := seqs [chr '#', wsS, opt (chr ':'), wsS],
      grp := seqs [.rep alphaCls 2 none false, opt (chr '-'), plus dig] },
    { pre := seqs [strRE "invoice", wsS, opt (chr ':'), wsS],
      grp := seqs [.rep alnumCls 3 none false,
        opt (seqs [.cls (fun c => c = '-' || c = '_' || c = '/' || c = '.'), plus alnumCls])] },
    { pre := seqs [strRE "bill", .rep (.cls (fun c => c ≠ '\n')) 0 (some 30) true],
      grp := .rep dig 1 (some 6) false } ]

def invBlacklist : List String :=
  ["date", "ltd", "limited", "inc", "corp", "pvt", "llc", "company", "co"]

def invIsBlack (inv : Str) : Bool := invBlacklist.any (fun b => ofS b = lowerL inv)

/-- One pattern attempt of extract_invoice_number: the cleaned capture, its
blacklist and length and digit checks; none means fall through to the next
pattern. -/
def invAccept (cap : Str) : Option Str :=
  let inv := (stripL cap).filter (fun c => !isSpaceC c)
  if invIsBlack inv then none
  else if 1 ≤ inv.length && inv.length ≤ 30 && inv.any isDigitC then some (upperL inv)
  else none

/-- The fallback pattern additionally rejects date-like captures. -/
def invAcceptLast (cap : Str) : Option Str :=
  let inv := (stripL cap).filter (fun c => !isSpaceC c)
  if invIsBlack inv then none
  else if inv.length ≥ 4 || inv.contains '-' || inv.contains '/' then none
  else if 1 ≤ inv.length && inv.length ≤ 30 && inv.any isDigitC then some (upperL inv)
  else none

def invGo : List Pat → Str → Option Str
  | [], _ => none
  | [P], t =>
    match searchP P t with
    | none => none
    | some m => invAcceptLast m.cap
  | P :: ps, t =>
    match searchP P t with
    | none => invGo ps t
    | some m =>
      match invAccept m.cap with
      | some r => some r
      | none => invGo ps t

/-- extract_invoice_number: case-insensitive pattern list over the raw
text, normalized to upper case on acceptance. -/
def extract_invoice_number (t : Str) : Option Str := invGo invPats (lowerL t)

/-! ## Vendor extraction (extract_vendor) -/

def skipExactTerms : List String :=
  ["tax invoice", "invoice", "bill", "original", "duplicate", "original / duplicate",
   "original /duplicate", "tax invoice original", "tax invoice duplicate",
   "original /duplicate bill", "tax invoice original /duplicate bill",
   "receipt", "estimate", "quotation", "challan", "proforma invoice"]

def skipKeywords : List String :=
  ["gstin", "gst no", "pan no", "cin no", "bill to", "ship to", "contact no",
   "due date", "invoice date", "invoice #", "invoice no", "p.o.#", "terms",
   "buyer name", "buyer", "customer name", "vat/pan no", "address :",
   "issued to", "date issued", "billed to", "sold to", "issued by",
   "attention", "attn:", "client", "customer",
   "@", "email", "mail", ".com", ".net", ".org", "|"]

def vendorIndicators : List String :=
  ["store", "market", "shop", "restaurant", "cafe", "gas", "pharmacy",
   "hospital", "clinic", "hotel", "airline", "taxi", "uber", "lyft"]

def addrWords : List String :=
  ["plot", "building", "bldg", "floor", "street", "road", "cross", "lane", "avenue", "drive"]

def contactWords : List String := ["contact", "phone", "mobile", "email", "fax", "tel"]

/-- Character class of the purely numeric/punctuation line filter. -/
def numLineCls (c : Char) : Bool :=
  isDigitC c || isSpaceC c || c = '-' || c = '/' || c = ':' || c = ',' || c = '.' ||
    c = '#' || c = '(' || c = ')'

/-- The legal-suffix search of the high-confidence vendor branch:
word-bounded inc, llc, ltd, corp, pvt, limited, corporation, company with
optional trailing dots, in the alternation order of the source. -/
def legalSufPat : Pat :=
  { pre := .bnd,
    grp := alts [seqs [strRE "inc", opt (chr '.')], strRE "llc",
      seqs [strRE "ltd", opt (chr '.')], seqs [strRE "corp", opt (chr '.')],
      seqs [strRE "pvt", opt (chr '.')], strRE "limited", strRE "corporation",
      strRE "company"],
    post := .bnd }

/-- Python str.isupper restricted to ASCII letters: at least one letter and
no lower-case letter. -/
def pyIsUpper (s : Str) : Bool := s.any isAlphaC && !(s.any isLowerA)

def hasInd (ll : Str) : Bool := vendorIndicators.any (fun w => containsL (ofS w) ll)

/-- Scoring of one line of extract_vendor; none when the line is skipped or
matches no scoring branch. -/
def lineScore (i : Nat) (line : Str) : Option (Nat × Str) :=
  let l := stripL line
  if l.length < 3 then none
  else
    let ll := lowerL l
    if skipExactTerms.any (fun s => ofS s = ll) then none
    else if skipKeywords.any (fun s => containsL (ofS s) ll) then none
    else if l.all numLineCls then none
    else if (match l with
             | c :: _ => c = '#' || isDigitC c
             | [] => false) ||
            addrWords.any (fun w => containsL (ofS w) ll) then none
    else if contactWords.any (fun w => containsL (ofS w) ll) then none
    else if (searchP legalSufPat ll).isSome then
      some (15 + (if 1 ≤ i ∧ i < 5 then 5 else 0), l)
    else if pyIsUpper l && decide (l.length > 5) then
      let words := pySplit l
      if words.length ≥ 2 || hasInd ll then
        some (10 + (if 2 ≤ i ∧ i < 8 then 5 else 0) + (if hasInd ll then 3 else 0), l)
      else if words.length = 1 && decide (l.length ≥ 5) then
        some (12 + (if i < 5 then 8 else 0), l)
      else none
    else if (match l with
             | c :: _ => isUpperA c
             | [] => false) && !pyIsUpper l && decide (l.length > 5) then
      let words := pySplit l
      let capc := (words.filter (fun w =>
        match w with
        | c :: _ => isUpperA c
        | [] => false)).length
      if capc ≥ 2 || hasInd ll then
        some (8 + (if 1 ≤ i ∧ i < 5 then 4 else 0) + (if hasInd ll then 3 else 0), l)
      else none
    else if hasInd ll then
      if (pySplit l).length ≥ 2 then
        some (7 + (if 2 ≤ i ∧ i < 8 then 3 else 0), l)
      else none
    else none

def dropTrailWhile (p : Char → Bool) (s : Str) : Str := (s.reverse.dropWhile p).reverse

def isBracketC (c : Char) : Bool :=
  c = '[' || c = ']' || c = Char.ofNat 123 || c = Char.ofNat 125 || c = '(' || c = ')'

def isTrailNumC (c : Char) : Bool := isDigitC c || c = ']' || c = '|'

/-- Removal of the single trailing digits/pipes run, with the whitespace
immediately before it, as the anchored substitution in the source. -/
def dropTrailNum (s : Str) : Str :=
  match s.reverse with
  | c :: _ =>
    if isTrailNumC c then ((s.reverse.dropWhile isTrailNumC).dropWhile isSpaceC).reverse
    else s
  | [] => s

def cleanVendor (v : Str) : Str := stripL (dropTrailNum (dropTrailWhile isBracketC v))

/-- extract_vendor: score the first fifteen lines, pick the earliest
highest-scoring candidate, clean trailing artifacts. -/
def extract_vendor (lines : List Str) : Option Str :=
  let cands := ((lines.take 15).enum).filterMap (fun p => lineScore p.1 p.2)
  let best := cands.foldl (fun best c =>
    match best with
    | none => some c
    | some b => if c.1 > b.1 then some c else best) none
  best.map (fun b => cleanVendor b.2)

/-! ## Date extraction (extract_date) -/

structure Date where
  y : Nat
  m : Nat
  d : Nat
deriving DecidableEq, Repr

def isLeap (y : Nat) : Bool := (y % 4 = 0 && y % 100 ≠ 0) || y % 400 = 0

def daysIn (y m : Nat) : Nat :=
  if m = 2 then (if isLeap y then 29 else 28)
  else if m = 4 || m = 6 || m = 9 || m = 11 then 30
  else 31

def gregOk (y m d : Nat) : Bool :=
  1 ≤ y && y ≤ 9999 && 1 ≤ m && m ≤ 12 && 1 ≤ d && d ≤ daysIn y m

def mkDate (y m d : Nat) : Option Date := if gregOk y m d then some ⟨y, m, d⟩ else none

def dval (c : Char) : Nat := c.toNat - 48

/-- The strptime day field: two-digit values up to 31 preferred, one digit
otherwise. -/
def pDay : Str → Option (Nat × Str)
  | c1 :: c2 :: rest =>
    if c1 = '3' && (c2 = '0' || c2 = '1') then some (30 + dval c2, rest)
    else if (c1 = '1' || c1 = '2') && isDigitC c2 then some (10 * dval c1 + dval c2, rest)
    else if c1 = '0' && ('1' ≤ c2 && c2 ≤ '9') then some (dval c2, rest)
    else if '1' ≤ c1 && c1 ≤ '9' then some (dval c1, c2 :: rest)
    else none
  | [c1] => if '1' ≤ c1 && c1 ≤ '9' then some (dval c1, []) else none
  | [] => none

/-- The strptime month field. -/
def pMonth : Str → Option (Nat × Str)
  | c1 :: c2 :: rest =>
    if c1 = '1' && ('0' ≤ c2 && c2 ≤ '2') then some (10 + dval c2, rest)
    else if c1 = '0' && ('1' ≤ c2 && c2 ≤ '9') then some (dval c2, rest)
    else if '1' ≤ c1 && c1 ≤ '9' then some (dval c1, c2 :: rest)
    else none
  | [c1] => if '1' ≤ c1 && c1 ≤ '9' then some (dval c1, []) else none
  | [] => none

/-- The strptime two-digit year field: exactly two digits, 0 to 68 mapped
into the 2000s and 69 to 99 into the 1900s. -/
def pY2 : Str → Option (Nat × Str)
  | c1 :: c2 :: rest =>
    if isDigitC c1 && isDigitC c2 then
      let v := 10 * dval c1 + dval c2
      some ((if v ≤ 68 then 2000 + v else 1900 + v), rest)
    else none
  | _ => none

/-- The strptime four-digit year field. -/
def pY4 : Str → Option (Nat × Str)
  | c1 :: c2 :: c3 :: c4 :: rest =>
    if isDigitC c1 && isDigitC c2 && isDigitC c3 && isDigitC c4 then
      some (1000 * dval c1 + 100 * dval c2 + 10 * dval c3 + dval c4, rest)
    else none
  | _ => none

def pLit (c : Char) : Str → Option Str
  | x :: t => if x = c then some t else none
  | [] => none

def pWs1 (s : Str) : Option Str :=
  match s with
  | c :: t => if isSpaceC c then some (t.dropWhile isSpaceC) else none
  | [] => none

def monthFullNames : List String :=
  ["january", "february", "march", "april", "may", "june", "july", "august",
   "september", "october", "november", "december"]

def monthAbbrNames : List String :=
  ["jan", "feb", "mar", "apr", "may", "jun", "jul", "aug", "sep", "oct", "nov", "dec"]

def pMonthName (names : List String) (s : Str) : Option (Nat × Str) :=
  (names.enum.find? (fun p => startsL (ofS p.2) s)).map
    (fun p => (p.1 + 1, s.drop (ofS p.2).length))

/-- One separator-based strptime format: day sep month sep year, two- or
four-digit year, full consumption, calendar validity. -/
def fmtDMY (sep : Char) (y4 : Bool) (ds : Str) : Option (Nat × Nat × Nat) := do
  let (d, r1) ← pDay ds
  let r2 ← pLit sep r1
  let (m, r3) ← pMonth r2
  let r4 ← pLit sep r3
  let (y, r5) ← (if y4 then pY4 r4 else pY2 r4)
  if r5.isEmpty then pure (y, m, d) else none

def fmtMDY (sep : Char) (ds : Str) : Option (Nat × Nat × Nat) := do
  let (m, r1) ← pMonth ds
  let r2 ← pLit sep r1
  let (d, r3) ← pDay r2
  let r4 ← pLit sep r3
  let (y, r5) ← pY4 r4
  if r5.isEmpty then pure (y, m, d) else none

def fmtYMD (ds : Str) : Option (Nat × Nat × Nat) := do
  let (y, r1) ← pY4 ds
  let r2 ← pLit '-' r1
  let (m, r3) ← pMonth r2
  let r4 ← pLit '-' r3
  let (d, r5) ← pDay r4
  if r5.isEmpty then pure (y, m, d) else none

def fmtMonthName (names : List String) (ds : Str) : Option (Nat × Nat × Nat) := do
  let (m, r1) ← pMonthName names ds
  let r2 ← pWs1 r1
  let (d, r3) ← pDay r2
  let r4 ← pLit ',' r3
  let r5 ← pWs1 r4
  let (y, r6) ← pY4 r5
  if r6.isEmpty then pure (y, m, d) else none

/-- The date_formats list of the source, in order, each validated through
the calendar. -/
def dateFormatList : List (Str → Option (Nat × Nat × Nat)) :=
  [fmtDMY '-' false, fmtDMY '/' false, fmtDMY '-' true, fmtDMY '/' true,
   fmtMDY '/', fmtMDY '-', fmtYMD,
   fmtMonthName monthFullNames, fmtMonthName monthAbbrNames]

/-- Modelled from the spec: the external Bikram Sambat to Gregorian
conversion performed by the nepali-datetime library, which is not part of
this repository.  The spec fixes the conversion only through reference
fixture pairs; the table here carries the start of BS year 2081 (Gregorian
2024-04-13); on other inputs the conversion is treated as failing, which
the caller handles by keeping the unconverted date. -/
def bsToAd (dt : Date) : Option Date :=
  if dt = ⟨2081, 1, 1⟩ then some ⟨2024, 4, 13⟩ else none

/-- Post-processing after a successful separator-format parse: years 2070
to 2100 are reinterpreted as Bikram Sambat and converted when conversion
succeeds; otherwise years below 2000 are promoted by adding 2000. -/
def postProc (dt : Date) : Date :=
  if 2070 ≤ dt.y ∧ dt.y ≤ 2100 then
    match bsToAd dt with
    | some ad => ad
    | none => dt
  else if dt.y < 2000 then { dt with y := dt.y + 2000 }
  else dt

def tryFormats (ds : Str) : Option Date :=
  match dateFormatList.findSome? (fun f => (f ds).bind (fun v => mkDate v.1 v.2.1 v.2.2)) with
  | some dt => some (postProc dt)
  | none => none

/-- The ten-digit no-separator branch: month, day, then the last four
digits as a year restricted to 1900..2100. -/
def try10 (ds : Str) : Option Date :=
  let mo := digitsToNat (ds.take 2)
  let dy := digitsToNat ((ds.drop 2).take 2)
  let yr := digitsToNat (ds.drop 6)
  if 1900 ≤ yr && yr ≤ 2100 then mkDate yr mo dy else none

/-- The eight-digit no-separator branch: month-day-year then day-month-year. -/
def try8 (ds : Str) : Option Date :=
  let a := digitsToNat (ds.take 2)
  let b := digitsToNat ((ds.drop 2).take 2)
  let yr := digitsToNat ((ds.drop 4).take 4)
  orO (mkDate yr a b) (fun _ => mkDate yr b a)

def processDs (ds : Str) : Option Date :=
  orO (if ds.length = 10 && ds.all isDigitC then try10 ds else none) (fun _ =>
    orO (if ds.length = 8 && ds.all isDigitC then try8 ds else none) (fun _ =>
      tryFormats ds))

def dateLab1 : RE :=
  alts [seqs [strRE "invoice", wsP, strRE "date"],
    seqs [strRE "inv", opt (chr '.'), wsS, strRE "date"],
    seqs [strRE "bill", wsS, strRE "date"],
    seqs [strRE "date", wsS, strRE "of", wsS, strRE "invoice"]]

def dateLab2 : RE :=
  alts [seqs [strRE "inv", opt (chr '.'), wsS, strRE "date"],
    seqs [strRE "bill", wsS, strRE "date"],
    strRE "date"]

def sepCls : RE := .cls (fun c => c = '-' || c = '/')

def dmyGrp : RE :=
  seqs [.rep dig 1 (some 2) false, sepCls, .rep dig 1 (some 2) false, sepCls,
    .rep dig 2 (some 4) false]

def ymdGrp : RE :=
  seqs [.rep dig 2 (some 4) false, sepCls, .rep dig 1 (some 2) false, sepCls,
    .rep dig 1 (some 2) false]

def mnameGrp : RE :=
  seqs [alts (monthAbbrNames.map strRE), star (.cls isLowerA), wsP,
    .rep dig 1 (some 2) false, opt (chr ','), wsP, .rep dig 2 (some 4) false]

/-- The DATE_PATTERNS list of the source, in order. -/
def datePats : List Pat :=
  [ { pre := seqs [dateLab1, wsS, opt (chr ':'), wsS], grp := .rep dig 8 (some 10) false },
    { pre := seqs [dateLab1, wsS, opt (chr ':'), wsS], grp := dmyGrp },
    { pre := seqs [dateLab2, wsS, opt (chr ':'), wsS], grp := dmyGrp },
    { pre := .eps, grp := dmyGrp },
    { pre := .eps, grp := ymdGrp },
    { pre := .eps, grp := mnameGrp } ]

def dateLoop : List Pat → Str → Option Date
  | [], _ => none
  | P :: ps, t =>
    match searchP P t with
    | none => dateLoop ps t
    | some m =>
      match processDs m.cap with
      | some dt => some dt
      | none => dateLoop ps t

/-- extract_date: first pattern whose first match yields a parseable date. -/
def extract_date (t : Str) : Option Date := dateLoop datePats t

/-! ## Line items (extract_line_items, parse_item_line) -/

structure Item where
  description : Str
  quantity : Option Str
  rate : Option Str
  amount : Option Str
  raw : Str
deriving DecidableEq, Repr

def itemStartKeys : List String :=
  ["goods & service", "description", "item name", "particulars", "sr"]

def itemEndKeys : List String :=
  ["sub-total", "subtotal", "summery", "summary", "bank details"]

/-- Presence of a decimal-formatted number with two decimals. -/
def decNumPat : Pat := { pre := .eps, grp := seqs [plus dig, chr '.', dig, dig] }

/-- Full-token numeric test: digits with an optional two-decimal part, on
the comma-free form of the token. -/
def fullNumTok (q : Str) : Bool :=
  let ip := q.takeWhile isDigitC
  let r := q.dropWhile isDigitC
  !ip.isEmpty &&
    (r.isEmpty ||
      (match r with
       | '.' :: a :: b :: [] => isDigitC a && isDigitC b
       | _ => false))

def noComma (p : Str) : Str := p.filter (fun c => c ≠ ',')

def parseItemLine (line : Str) : Option Item :=
  let parts := pySplit line
  let numbers := parts.filterMap (fun p =>
    let q := noComma p
    if fullNumTok q then some q else none)
  if numbers.length ≥ 3 then
    let descParts := parts.takeWhile (fun p => !fullNumTok (noComma p))
    some { description := stripL (List.intercalate [' '] descParts),
           quantity := numbers.head?,
           rate := numbers[1]?,
           amount := numbers.getLast?,
           raw := line }
  else none

def liGo : List Str → Bool → List Item
  | [], _ => []
  | l :: rest, inSec =>
    let ll := lowerL l
    if itemStartKeys.any (fun k => containsL (ofS k) ll) then liGo rest true
    else if itemEndKeys.any (fun k => containsL (ofS k) ll) then []
    else if inSec && !(stripL l).isEmpty && (searchP decNumPat l).isSome then
      match parseItemLine l with
      | some it => it :: liGo rest inSec
      | none => liGo rest inSec
    else liGo rest inSec

def extract_line_items (lines : List Str) : List Item := (liGo lines false).take 20

/-! ## The whole field extractor (extract_bill_data) -/

structure Extracted where
  amount : Option ℚ
  tax_amount : Option ℚ
  vendor : Option Str
  bill_date : Option Date
  line_items : List Item
  invoice_number : Option Str
  gstin : Option Str
  subtotal : Option ℚ
  cgst : Option ℚ
  sgst : Option ℚ
deriving DecidableEq, Repr

/-- extract_bill_data: every per-field extractor applied to the lowered
text, the raw text or the line list, exactly as in the source. -/
def extract_bill_data (t : Str) : Extracted :=
  let tl := lowerL t
  let ls := splitNl t
  { amount := extract_amount tl,
    tax_amount := extract_tax tl,
    vendor := extract_vendor ls,
    bill_date := extract_date tl,
    line_items := extract_line_items ls,
    invoice_number := extract_invoice_number t,
    gstin := extract_gstin t,
    subtotal := extract_subtotal tl,
    cgst := extract_cgst tl,
    sgst := extract_sgst tl }

/-! ## Categorization engine (BillCategorizationService) -/

structure Category where
  name : String
  keywords : String
deriving DecidableEq, Repr

/-- Category.get_keywords_list: split the comma-separated field, keep the
stripped lowered nonempty entries. -/
def getKeywordsList (c : Category) : List Str :=
  (splitOnC ',' (ofS c.keywords)).filterMap (fun k =>
    let k2 := stripL k
    if k2.isEmpty then none else some (lowerL k2))

structure VMap where
  vendor : Str
  category : String
  confidence : ℚ
deriving DecidableEq, Repr

/-- The loaded engine state: the vendor-to-category CSV rows (keys already
lower-cased by the loader) and the category table. -/
structure Env where
  mappings : List VMap
  categories : List Category
deriving Repr

def findCat (env : Env) (name : String) : Option Category :=
  env.categories.find? (fun c => c.name = name)

/-- Keyword score of one category: each contained keyword contributes its
length over ten plus one; the sum is normalized by the keyword count. -/
def kwScore (textLower : Str) (kws : List Str) : ℚ :=
  let raw := kws.foldl
    (fun s kw => if containsL kw textLower then s + ((kw.length : ℚ) / 10 + 1) else s) 0
  if kws.isEmpty then raw else raw / kws.length

/-- The keyword tier: best strictly-improving score over the categories
with a nonempty keyword field. -/
def kwBest (env : Env) (textLower : Str) : Option Category × ℚ :=
  (env.categories.filter (fun c => c.keywords ≠ "")).foldl
    (fun best c =>
      if kwScore textLower (getKeywordsList c) > best.2 then
        (some c, kwScore textLower (getKeywordsList c))
      else best)
    (none, 0)

/-- Exact CSV tier: verbatim lookup of the normalized vendor; a missing
category row makes the tier fall through. -/
def exactTier (env : Env) (vendorLower : Str) : Option (Category × ℚ) :=
  match env.mappings.find? (fun m => m.vendor = vendorLower) with
  | none => none
  | some m => (findCat env m.category).map (fun c => (c, m.confidence))

/-- Substring CSV tier: first mapping whose key contains or is contained in
the vendor string and whose category row exists, at nine tenths of the
configured confidence. -/
def looseTier (env : Env) (vendorLower : Str) : List VMap → Option (Category × ℚ)
  | [] => none
  | m :: rest =>
    if containsL m.vendor vendorLower || containsL vendorLower m.vendor then
      match findCat env m.category with
      | some c => some (c, m.confidence * (9 / 10))
      | none => looseTier env vendorLower rest
    else looseTier env vendorLower rest

/-- The combined CSV vendor tier: exact lookup, then substring scan, on a
truthy vendor string. -/
def vendorTier (env : Env) (vendor : Option Str) : Option (Category × ℚ) :=
  match vendor with
  | none => none
  | some v =>
    if v.isEmpty then none
    else
      let vl := stripL (lowerL v)
      orO (exactTier env vl) (fun _ => looseTier env vl env.mappings)

/-- categorize_by_keywords: CSV exact, CSV substring, then the keyword
scorer with its confidence cap of ninety-five hundredths. -/
def categorize_by_keywords (env : Env) (text : Str) (vendor : Option Str) :
    Option Category × ℚ :=
  if text.isEmpty then (none, 0)
  else
    match vendorTier env vendor with
    | some (c, conf) => (some c, conf)
    | none =>
      let b := kwBest env (lowerL text)
      (b.1, min (b.2 * (8 / 10)) (95 / 100))

inductive Meth where
  | csv_mapping
  | csv_ml_agreement
  | ml_model
  | csv_fallback
  | keyword_fallback
deriving DecidableEq, Repr

structure CatResult where
  category : Option Category
  confidence : ℚ
  method : Option Meth
deriving DecidableEq, Repr

/-- The analyzed text of categorize_bill and of the serializer: vendor (or
empty) and OCR text joined by one space and stripped. -/
def analyzedText (vendor : Option Str) (ocr : Str) : Str :=
  stripL ((vendor.getD []) ++ ' ' :: ocr)

/-- categorize_bill cascade, with the trained-classifier outcome passed in:
none when no usable model is loaded, otherwise the predicted category (none
on a missing category row) and its probability. -/
def categorize_bill (env : Env) (vendor : Option Str) (ocr : Str)
    (ml : Option (Option Category × ℚ)) : CatResult :=
  let p := categorize_by_keywords env (analyzedText vendor ocr) vendor
  let csvCat := p.1
  let csvConf := p.2
  if csvCat.isSome && decide (csvConf > 8 / 10) then
    ⟨csvCat, csvConf, some .csv_mapping⟩
  else
    match ml with
    | some (mlCat, mlConf) =>
      if mlCat.isSome && decide (mlConf > 1 / 2) then
        if csvCat = mlCat then
          ⟨mlCat, min (max csvConf mlConf * (11 / 10)) (99 / 100), some .csv_ml_agreement⟩
        else if mlConf > csvConf then ⟨mlCat, mlConf, some .ml_model⟩
        else ⟨csvCat, csvConf, some .csv_mapping⟩
      else if csvCat.isSome then ⟨csvCat, csvConf, some .csv_fallback⟩
      else ⟨none, 0, none⟩
    | none =>
      if csvCat.isSome then ⟨csvCat, csvConf, some .keyword_fallback⟩
      else ⟨none, 0, none⟩

/-- The commit rule shared by categorize_bill and the serializer: the
category is written to the record only above the threshold of three
tenths. -/
def commitCategory (r : CatResult) : Option (Category × ℚ) :=
  match r.category with
  | some c => if r.confidence > 3 / 10 then some (c, r.confidence) else none
  | none => none

/-- The auto-categorization step of the upload serializer: direct
categorize_by_keywords call followed by the same commit rule. -/
def serializerCommit (env : Env) (vendor : Option Str) (ocr : Str) :
    Option (Category × ℚ) :=
  let p := categorize_by_keywords env (analyzedText vendor ocr) vendor
  match p.1 with
  | some c => if p.2 > 3 / 10 then some (c, p.2) else none
  | none => none

/-! ## Duplicate detection (BillSerializer.create, checks 1 and 2) -/

structure BillRec where
  id : Nat
  user : Nat
  invoice_number : Option Str
  vendor : Option Str
  ocr_text : Str
deriving DecidableEq, Repr

def pyTruthyS : Option Str → Bool
  | some s => !s.isEmpty
  | none => false

/-- Check 1: same user, case-insensitive invoice number, case-insensitive
vendor; the stored rows are scanned in query order and the first match is
reported. -/
def dupCheck1 (db : List BillRec) (u : Nat) (inv vend : Str) : Option BillRec :=
  db.find? (fun b =>
    b.user = u &&
    (match b.invoice_number with
     | some bi => lowerL bi = lowerL (stripL inv)
     | none => false) &&
    (match b.vendor with
     | some bv => lowerL bv = lowerL (stripL vend)
     | none => false))

/-- Check 2: same user, case-insensitive invoice number, and the extracted
tax id contained case-insensitively in the stored OCR text. -/
def dupCheck2 (db : List BillRec) (u : Nat) (inv pan : Str) : Option BillRec :=
  db.find? (fun b =>
    b.user = u &&
    (match b.invoice_number with
     | some bi => lowerL bi = lowerL (stripL inv)
     | none => false) &&
    containsL (lowerL pan) (lowerL b.ocr_text))

/-- The duplicate decision of the upload path: check 1 needs a truthy
invoice number and vendor, check 2 a truthy invoice number and extracted
tax id. -/
def findDuplicate (db : List BillRec) (u : Nat) (inv vend pan : Option Str) :
    Option BillRec :=
  let d1 :=
    if pyTruthyS inv && pyTruthyS vend then dupCheck1 db u (inv.getD []) (vend.getD [])
    else none
  match d1 with
  | some b => some b
  | none =>
    if pyTruthyS inv && pyTruthyS pan then dupCheck2 db u (inv.getD []) (pan.getD [])
    else none

/-- Outcome of the duplicate gate of the upload: a detected duplicate
deletes the new record and its image and surfaces the conflicting record
id as a validation error; otherwise the upload proceeds. -/
def uploadOutcome (db : List BillRec) (u : Nat) (inv vend pan : Option Str) :
    Except Nat Unit :=
  match findDuplicate db u inv vend pan with
  | some b => .error b.id
  | none => .ok ()

/-! ## Transaction classifier (BillSerializer.create, income detection) -/

def recipientIndicators : List String :=
  ["issued to", "bill to", "billed to", "sold to", "customer", "client", "attention", "attn"]

/-- The business-suffix deletion of the vendor-name match, with the
alternation order of the source. -/
def bizSufPat : Pat :=
  { pre := wsS,
    grp := alts [seqs [strRE "pvt", opt (chr '.')], seqs [strRE "ltd", opt (chr '.')],
      strRE "limited", strRE "private", seqs [strRE "inc", opt (chr '.')], strRE "llc",
      seqs [strRE "corp", opt (chr '.')], strRE "corporation",
      seqs [strRE "co", opt (chr '.')]],
    post := wsS }

/-- Method 1: vendor name against the registered company name, skipping
recipient-context vendor strings, with exact, suffix-stripped, or long
prefix containment matching. -/
def vendorNameMatch (vend comp : Str) : Bool :=
  let vn := lowerL (stripL vend)
  let cn := lowerL (stripL comp)
  if recipientIndicators.any (fun k => containsL (ofS k) vn) then false
  else
    let vc := stripL (subAll bizSufPat vn)
    let cc := stripL (subAll bizSufPat cn)
    if cc.length ≥ 5 then
      vn = cn || vc = cc || (startsL cn vn && cn.length ≥ 5) ||
        (startsL vn cn && vn.length ≥ 5)
    else false

def litOf (s : Str) : RE := (s.map chr).foldr .seq .eps

/-- The label-anchored tax-id pattern of method 2, on upper-cased text. -/
def panLabeledPat (pn : Str) : Pat :=
  { pre := seqs [alts [strRE "PAN", strRE "VAT", strRE "TIN",
      seqs [strRE "TAX", wsS, strRE "ID"], strRE "REGISTRATION"], wsS,
      opt (alts [seqs [strRE "NO", opt (chr '.')], strRE "NUMBER", chr '#']), wsS,
      opt (.cls (fun c => c = ':' || c = '-')), wsS],
    grp := litOf pn }

/-- The bare word-bounded tax-id pattern, used only for ids of at least
nine characters. -/
def panBarePat (pn : Str) : Pat := { pre := .bnd, grp := litOf pn, post := .bnd }

/-- Method 2: the normalized registered tax id searched in the upper-cased
OCR text, label-anchored first, bare only when long enough. -/
def panMatch (pan : Str) (ocr : Str) : Bool :=
  let pn := (upperL (stripL pan)).filter (fun c => !(isSpaceC c || c = '-'))
  let up := upperL ocr
  (searchP (panLabeledPat pn) up).isSome ||
    (pn.length ≥ 9 && (searchP (panBarePat pn) up).isSome)

/-- The self-issued check of the serializer: vendor-name match, then
tax-id match as fallback. -/
def isOwnCompany (vend comp pan : Option Str) (ocr : Str) : Bool :=
  (pyTruthyS vend && pyTruthyS comp && vendorNameMatch (vend.getD []) (comp.getD [])) ||
    (pyTruthyS pan && !ocr.isEmpty && panMatch (pan.getD []) ocr)

inductive TType where
  | DEBIT
  | CREDIT
deriving DecidableEq, Repr

inductive AType where
  | EXPENSE
  | REVENUE
  | ASSET
  | LIABILITY
  | EQUITY
deriving DecidableEq, Repr

structure TranRole where
  transaction_type : TType
  account_type : AType
  is_debit : Bool
deriving DecidableEq, Repr

/-- The transaction-role assignment of the serializer: REVENUE/CREDIT
exactly on a successful self-issued check, EXPENSE/DEBIT otherwise. -/
def classifyTransaction (vend comp pan : Option Str) (ocr : Str) : TranRole :=
  if isOwnCompany vend comp pan ocr then ⟨.CREDIT, .REVENUE, false⟩
  else ⟨.DEBIT, .EXPENSE, true⟩

/-! ## Helper lemmas -/

theorem orO_some {α : Type} (x : α) (g : Unit → Option α) : orO (some x) g = some x := rfl

theorem orO_none {α : Type} (g : Unit → Option α) : orO none g = g () := rfl

theorem firstCapQ_none (ps : List Pat) (t : Str)
    (h : ∀ P ∈ ps, searchP P t = none) : firstCapQ ps t = none := by
  induction ps with
  | nil => rfl
  | cons P ps ih =>
    unfold firstCapQ
    rw [h P (List.mem_cons_self P ps)]
    exact ih (fun Q hQ => h Q (List.mem_cons_of_mem P hQ))

theorem invGo_none (ps : List Pat) (t : Str)
    (h : ∀ P ∈ ps, searchP P t = none) : invGo ps t = none := by
  induction ps with
  | nil => rfl
  | cons P ps ih =>
    cases ps with
    | nil =>
      unfold invGo
      rw [h P (List.mem_cons_self P [])]
    | cons Q qs =>
      unfold invGo
      rw [h P (List.mem_cons_self P (Q :: qs))]
      exact ih (fun R hR => h R (List.mem_cons_of_mem P hR))

theorem dateLoop_none (ps : List Pat) (t : Str)
    (h : ∀ P ∈ ps, searchP P t = none) : dateLoop ps t = none := by
  induction ps with
  | nil => rfl
  | cons P ps ih =>
    unfold dateLoop
    rw [h P (List.mem_cons_self P ps)]
    exact ih (fun Q hQ => h Q (List.mem_cons_of_mem P hQ))

theorem liGo_nil : ∀ (ls : List Str) (b : Bool),
    (∀ l ∈ ls, searchP decNumPat l = none) → liGo ls b = [] := by
  intro ls
  induction ls with
  | nil => intro b _; rfl
  | cons l ls ih =>
    intro b h
    have hl : searchP decNumPat l = none := h l (List.mem_cons_self l ls)
    have ht : ∀ x ∈ ls, searchP decNumPat x = none :=
      fun x hx => h x (List.mem_cons_of_mem l hx)
    unfold liGo
    rw [hl]
    simp only [Option.isSome_none, Bool.and_false, Bool.false_eq_true, if_false]
    by_cases h1 : itemStartKeys.any (fun k => containsL (ofS k) (lowerL l)) = true
    · simp only [h1, if_true]
      exact ih true ht
    · simp only [Bool.not_eq_true] at h1
      simp only [h1, Bool.false_eq_true, if_false]
      by_cases h2 : itemEndKeys.any (fun k => containsL (ofS k) (lowerL l)) = true
      · simp [h2]
      · simp only [Bool.not_eq_true] at h2
        simp only [h2, Bool.false_eq_true, if_false]
        exact ih b ht

theorem flattenNil {α : Type} (L : List (List α)) (h : ∀ l ∈ L, l = []) :
    L.flatten = [] := by
  induction L with
  | nil => rfl
  | cons l L ih =>
    rw [List.flatten_cons, h l (List.mem_cons_self l L), List.nil_append]
    exact ih (fun x hx => h x (List.mem_cons_of_mem l hx))

/-! ## Claim theorems -/

/-- Claim C10: when no invoice number was extracted from the upload,
neither duplicate check fires and the upload is always accepted, whatever
the extracted vendor, the extracted tax id and the existing records of the
user. -/
theorem missing_invoice_accepts_upload (db : List BillRec) (u : Nat)
    (vend pan : Option Str) :
    uploadOutcome db u none vend pan = Except.ok () := rfl

/-- Claim C5: for every classified bill the transaction-role fields are
coupled (DEBIT iff EXPENSE iff is_debit, CREDIT iff REVENUE iff not
is_debit), the role is EXPENSE/DEBIT by default, and it is REVENUE/CREDIT
exactly when the self-issued check (vendor-name match against the company
name, or tax-id match in the OCR text) succeeds. -/
theorem transaction_role_coupling (vend comp pan : Option Str) (ocr : Str) :
    ((classifyTransaction vend comp pan ocr).transaction_type = TType.DEBIT ↔
      (classifyTransaction vend comp pan ocr).account_type = AType.EXPENSE) ∧
    ((classifyTransaction vend comp pan ocr).transaction_type = TType.DEBIT ↔
      (classifyTransaction vend comp pan ocr).is_debit = true) ∧
    ((classifyTransaction vend comp pan ocr).transaction_type = TType.CREDIT ↔
      (classifyTransaction vend comp pan ocr).account_type = AType.REVENUE) ∧
    ((classifyTransaction vend comp pan ocr).transaction_type = TType.CREDIT ↔
      (classifyTransaction vend comp pan ocr).is_debit = false) ∧
    ((classifyTransaction vend comp pan ocr).account_type = AType.REVENUE ↔
      isOwnCompany vend comp pan ocr = true) ∧
    ((classifyTransaction vend comp pan ocr).account_type = AType.EXPENSE ↔
      isOwnCompany vend comp pan ocr = false) := by
  cases h : isOwnCompany vend comp pan ocr <;>
    simp [classifyTransaction, h]

/-- Claim C7 (code bug): the source comments intend two-digit years to be
promoted into the 2000s, and the spec states final year = 2000 plus the
written value; but strptime already maps 69..99 into the 1900s and the
code then adds another 2000, so the input 10-01-99 yields year 3999, not
2099.  Values 0..68 do land in the 2000s. -/
theorem two_digit_year_promotion_bug :
    extract_date (ofS "10-01-99") = some ⟨3999, 1, 10⟩ ∧
    (some (Date.mk 3999 1 10) ≠ some (Date.mk 2099 1 10)) ∧
    extract_date (ofS "10-01-25") = some ⟨2025, 1, 10⟩ :=
  ⟨by decide, by decide, by decide⟩

/-- Claim C3: whenever the Grand Total pattern matches the lowered text,
the amount extractor returns exactly the captured labeled value, read as
an exact decimal with thousands separators stripped, regardless of any
other amounts present in the text. -/
theorem grand_total_label_wins (t : Str) (m : MRes)
    (h : searchP grandTotalPat (lowerL t) = some m) :
    extract_amount (lowerL t) = some (decOf m.cap) ∧
    (extract_bill_data t).amount = some (decOf m.cap) := by
  have h1 : extract_amount (lowerL t) = some (decOf m.cap) := by
    unfold extract_amount amountStepGrand
    rw [h]
    rfl
  exact ⟨h1, by simp only [extract_bill_data]; exact h1⟩

/-- Witness for C3 at a text whose Grand Total label is 110 while a larger
amount 99999 occurs later: the extractor returns the labeled 110. -/
theorem grand_total_label_wins_witness :
    (extract_bill_data (ofS "Grand Total: 110 Amount: 99999")).amount =
      some (decOf (ofS "110")) ∧ decOf (ofS "110") = 110 := by
  constructor
  · exact (grand_total_label_wins (ofS "Grand Total: 110 Amount: 99999")
      ⟨ofS "110", ofS " amount: 99999", some '0'⟩ (by decide)).2
  · simp +decide [decOf, ofS, digitsToNat]

/-- Claim C8 counterexample: on a text carrying CGST 0.00 and SGST 5.00
both amounts are extracted, yet the tax extractor does not return their
sum 5: Python truthiness treats the zero CGST as absent, and the generic
pattern scan then returns 0. -/
theorem tax_zero_cgst_counterexample :
    extract_cgst (ofS "cgst amt: 0.00 sgst amt: 5.00") = some 0 ∧
    extract_sgst (ofS "cgst amt: 0.00 sgst amt: 5.00") = some 5 ∧
    extract_tax (ofS "cgst amt: 0.00 sgst amt: 5.00") = some 0 ∧
    extract_tax (ofS "cgst amt: 0.00 sgst amt: 5.00") ≠ some ((0 : ℚ) + 5) := by
  have hz : decOf (ofS "0.00") = 0 := by simp +decide [decOf, ofS, digitsToNat]
  have h5 : decOf (ofS "5.00") = 5 := by
    simp +decide [decOf, ofS, digitsToNat]
  have hcg : extract_cgst (ofS "cgst amt: 0.00 sgst amt: 5.00") =
      some (decOf (ofS "0.00")) := rfl
  have hsg : extract_sgst (ofS "cgst amt: 0.00 sgst amt: 5.00") =
      some (decOf (ofS "5.00")) := rfl
  have hfc : firstCapQ taxPats (ofS "cgst amt: 0.00 sgst amt: 5.00") =
      some (decOf (ofS "0.00")) := rfl
  have htax : extract_tax (ofS "cgst amt: 0.00 sgst amt: 5.00") = some 0 := by
    simp only [extract_tax]
    rw [hcg, hsg, hz, h5]
    have hfalse : (pyTruthyQ (some (0 : ℚ)) && pyTruthyQ (some (5 : ℚ))) = false := by
      simp [pyTruthyQ]
    rw [hfalse]
    simp only [Bool.false_eq_true, if_false]
    rw [hfc, hz]
  refine ⟨by rw [hcg, hz], by rw [hsg, h5], htax, ?_⟩
  rw [htax]
  intro hcontra
  have : (0 : ℚ) = 0 + 5 := Option.some.inj hcontra
  norm_num at this

/-- Claim C8 as amended: the CGST and SGST amounts are summed only when
both are extracted and nonzero; otherwise the first matching generic tax
pattern wins, and the result is none when no generic pattern matches. -/
theorem tax_sum_requires_nonzero (t : Str) :
    (∀ c s : ℚ, extract_cgst t = some c → c ≠ 0 → extract_sgst t = some s → s ≠ 0 →
      extract_tax t = some (c + s)) ∧
    ((pyTruthyQ (extract_cgst t) && pyTruthyQ (extract_sgst t)) = false →
      extract_tax t = firstCapQ taxPats t) ∧
    ((pyTruthyQ (extract_cgst t) && pyTruthyQ (extract_sgst t)) = false →
      (∀ P ∈ taxPats, searchP P t = none) → extract_tax t = none) := by
  refine ⟨?_, ?_, ?_⟩
  · intro c s hc hcz hs hsz
    simp only [extract_tax]
    rw [hc, hs]
    have : (pyTruthyQ (some c) && pyTruthyQ (some s)) = true := by
      simp [pyTruthyQ, hcz, hsz]
    rw [this]
    simp
  · intro hfalse
    simp only [extract_tax]
    rw [hfalse]
    simp
  · intro hfalse hnone
    simp only [extract_tax]
    rw [hfalse]
    simp only [Bool.false_eq_true, if_false]
    exact firstCapQ_none taxPats t hnone

/-- Witness for the amended C8: CGST 2.00 and SGST 3.00, both nonzero, sum
to 5. -/
theorem tax_sum_requires_nonzero_witness :
    extract_tax (ofS "cgst amt: 2.00 sgst amt: 3.00") = some ((2 : ℚ) + 3) := by
  have h2 : decOf (ofS "2.00") = 2 := by
    simp +decide [decOf, ofS, digitsToNat]
  have h3 : decOf (ofS "3.00") = 3 := by
    simp +decide [decOf, ofS, digitsToNat]
  have hcg : extract_cgst (ofS "cgst amt: 2.00 sgst amt: 3.00") =
      some (decOf (ofS "2.00")) := rfl
  have hsg : extract_sgst (ofS "cgst amt: 2.00 sgst amt: 3.00") =
      some (decOf (ofS "3.00")) := rfl
  exact (tax_sum_requires_nonzero (ofS "cgst amt: 2.00 sgst amt: 3.00")).1 2 3
    (by rw [hcg, h2]) (by norm_num) (by rw [hsg, h3]) (by norm_num)

/-- Claim C1: an upload whose extracted invoice number and vendor agree
case-insensitively with an existing bill of the same user is rejected with
the identifier of a conflicting stored bill; and when every stored bill
belongs to a different user, the upload is accepted.  The invoice number
and vendor are assumed in the stripped form the extractors produce. -/
theorem duplicate_detection_per_user (db : List BillRec) (u : Nat) (inv vend : Str)
    (pan : Option Str) (hinv : inv ≠ []) (hvend : vend ≠ [])
    (hsi : stripL inv = inv) (hsv : stripL vend = vend) :
    ((∃ b ∈ db, b.user = u ∧
        (∃ bi, b.invoice_number = some bi ∧ lowerL bi = lowerL inv) ∧
        (∃ bv, b.vendor = some bv ∧ lowerL bv = lowerL vend)) →
      ∃ d, uploadOutcome db u (some inv) (some vend) pan = Except.error d.id ∧
        d ∈ db ∧ d.user = u ∧
        (∃ di, d.invoice_number = some di ∧ lowerL di = lowerL inv) ∧
        (∃ dv, d.vendor = some dv ∧ lowerL dv = lowerL vend)) ∧
    ((∀ c ∈ db, c.user ≠ u) → uploadOutcome db u (some inv) (some vend) pan =
      Except.ok ()) := by
  have htvi : pyTruthyS (some inv) = true := by
    cases inv with
    | nil => exact absurd rfl hinv
    | cons c t => rfl
  have htvv : pyTruthyS (some vend) = true := by
    cases vend with
    | nil => exact absurd rfl hvend
    | cons c t => rfl
  constructor
  · rintro ⟨b, hb, hu, ⟨bi, hbi, hbiq⟩, ⟨bv, hbv, hbvq⟩⟩
    have hpb : (b.user = u &&
        (match b.invoice_number with
         | some x => lowerL x = lowerL (stripL inv)
         | none => false) &&
        (match b.vendor with
         | some x => lowerL x = lowerL (stripL vend)
         | none => false)) = true := by
      simp [hbi, hbv, hu, hsi, hsv, hbiq, hbvq]
    have hfind : (dupCheck1 db u inv vend).isSome := by
      unfold dupCheck1
      exact List.find?_isSome.2 ⟨b, hb, hpb⟩
    obtain ⟨d, hd⟩ := Option.isSome_iff_exists.mp hfind
    have hdp := List.find?_some (by simpa only [dupCheck1] using hd)
    have hdm : d ∈ db := List.mem_of_find?_eq_some (by simpa only [dupCheck1] using hd)
    simp only [Bool.and_eq_true, decide_eq_true_eq] at hdp
    obtain ⟨⟨hdu, hdinv⟩, hdv⟩ := hdp
    refine ⟨d, ?_, hdm, hdu, ?_, ?_⟩
    · simp only [uploadOutcome, findDuplicate, htvi, htvv, Bool.and_self, if_true,
        Option.getD_some]
      rw [hd]
    · cases hdi : d.invoice_number with
      | none => rw [hdi] at hdinv; exact absurd hdinv (by simp)
      | some di =>
        rw [hdi] at hdinv
        simp only [decide_eq_true_eq] at hdinv
        exact ⟨di, rfl, by rw [← hsi]; exact hdinv⟩
    · cases hdvv : d.vendor with
      | none => rw [hdvv] at hdv; exact absurd hdv (by simp)
      | some dv =>
        rw [hdvv] at hdv
        simp only [decide_eq_true_eq] at hdv
        exact ⟨dv, rfl, by rw [← hsv]; exact hdv⟩
  · intro hall
    have h1 : dupCheck1 db u inv vend = none := by
      unfold dupCheck1
      apply List.find?_eq_none.2
      intro c hc hpc
      simp only [Bool.and_eq_true, decide_eq_true_eq] at hpc
      exact hall c hc hpc.1.1
    have h2 : dupCheck2 db u inv (pan.getD []) = none := by
      unfold dupCheck2
      apply List.find?_eq_none.2
      intro c hc hpc
      simp only [Bool.and_eq_true, decide_eq_true_eq] at hpc
      exact hall c hc hpc.1.1
    simp only [uploadOutcome, findDuplicate, Option.getD_some, h1, h2, ite_self]

/-- Witness for C1: user 7 has stored bill 1 with invoice INV-1 from acme;
re-uploading inv-1 from Acme is rejected with identifier 1, while the same
upload against a store owned only by user 9 passes. -/
theorem duplicate_detection_per_user_witness :
    (∃ d : BillRec,
      uploadOutcome [⟨1, 7, some (ofS "INV-1"), some (ofS "acme"), []⟩] 7
          (some (ofS "inv-1")) (some (ofS "Acme")) none = Except.error d.id ∧
        d ∈ [(⟨1, 7, some (ofS "INV-1"), some (ofS "acme"), []⟩ : BillRec)] ∧
        d.user = 7 ∧
        (∃ di, d.invoice_number = some di ∧ lowerL di = lowerL (ofS "inv-1")) ∧
        (∃ dv, d.vendor = some dv ∧ lowerL dv = lowerL (ofS "Acme"))) ∧
    uploadOutcome [⟨1, 9, some (ofS "INV-1"), some (ofS "acme"), []⟩] 7
        (some (ofS "inv-1")) (some (ofS "Acme")) none = Except.ok () := by
  constructor
  · exact (duplicate_detection_per_user
      [⟨1, 7, some (ofS "INV-1"), some (ofS "acme"), []⟩] 7
      (ofS "inv-1") (ofS "Acme") none (by decide) (by decide) (by decide) (by decide)).1
      ⟨⟨1, 7, some (ofS "INV-1"), some (ofS "acme"), []⟩,
        List.mem_cons_self _ _, rfl,
        ⟨ofS "INV-1", rfl, by decide⟩, ⟨ofS "acme", rfl, by decide⟩⟩
  · exact (duplicate_detection_per_user
      [⟨1, 9, some (ofS "INV-1"), some (ofS "acme"), []⟩] 7
      (ofS "inv-1") (ofS "Acme") none (by decide) (by decide) (by decide) (by decide)).2
      (by decide)

/-- Claim C2: when the trained classifier is consulted (CSV tier
inconclusive or its confidence at most 0.8): on agreement with model
confidence above 0.5 the returned confidence is
min(max(csv, ml) * 1.1, 0.99) tagged csv_ml_agreement; on disagreement the
model wins exactly when its confidence exceeds the CSV confidence,
otherwise the CSV result stands; and a model confidence at most 0.5 is
ignored in favor of the CSV result when one exists. -/
theorem ml_cascade_rules (env : Env) (vendor : Option Str) (ocr : Str)
    (mlCat : Option Category) (mlConf : ℚ)
    (hcons : (categorize_by_keywords env (analyzedText vendor ocr) vendor).1 = none ∨
      (categorize_by_keywords env (analyzedText vendor ocr) vendor).2 ≤ 8 / 10) :
    (∀ c : Category, mlCat = some c →
      (categorize_by_keywords env (analyzedText vendor ocr) vendor).1 = some c →
      mlConf > 1 / 2 →
      categorize_bill env vendor ocr (some (mlCat, mlConf)) =
        ⟨some c,
          min (max (categorize_by_keywords env (analyzedText vendor ocr) vendor).2 mlConf *
            (11 / 10)) (99 / 100),
          some Meth.csv_ml_agreement⟩) ∧
    (∀ c : Category, mlCat = some c → mlConf > 1 / 2 →
      (categorize_by_keywords env (analyzedText vendor ocr) vendor).1 ≠ mlCat →
      mlConf > (categorize_by_keywords env (analyzedText vendor ocr) vendor).2 →
      categorize_bill env vendor ocr (some (mlCat, mlConf)) =
        ⟨mlCat, mlConf, some Meth.ml_model⟩) ∧
    (∀ c : Category, mlCat = some c → mlConf > 1 / 2 →
      (categorize_by_keywords env (analyzedText vendor ocr) vendor).1 ≠ mlCat →
      ¬ mlConf > (categorize_by_keywords env (analyzedText vendor ocr) vendor).2 →
      categorize_bill env vendor ocr (some (mlCat, mlConf)) =
        ⟨(categorize_by_keywords env (analyzedText vendor ocr) vendor).1,
          (categorize_by_keywords env (analyzedText vendor ocr) vendor).2,
          some Meth.csv_mapping⟩) ∧
    (mlConf ≤ 1 / 2 →
      (∀ c : Category,
        (categorize_by_keywords env (analyzedText vendor ocr) vendor).1 = some c →
        categorize_bill env vendor ocr (some (mlCat, mlConf)) =
          ⟨some c, (categorize_by_keywords env (analyzedText vendor ocr) vendor).2,
            some Meth.csv_fallback⟩) ∧
      ((categorize_by_keywords env (analyzedText vendor ocr) vendor).1 = none →
        categorize_bill env vendor ocr (some (mlCat, mlConf)) = ⟨none, 0, none⟩)) := by
  have h8 : ∀ c : Category,
      (categorize_by_keywords env (analyzedText vendor ocr) vendor).1 = some c →
      decide ((categorize_by_keywords env (analyzedText vendor ocr) vendor).2 > 8 / 10) =
        false := by
    intro c hc
    rcases hcons with h | h
    · rw [hc] at h
      exact absurd h (by simp)
    · exact decide_eq_false (not_lt.mpr h)
  refine ⟨?_, ?_, ?_, ?_⟩
  · intro c hmlc hcsv hgt
    simp only [categorize_bill, hcsv, h8 c hcsv, hmlc, Option.isSome_some, Bool.true_and,
      Bool.and_false, Bool.false_eq_true, if_false, decide_eq_true hgt, if_true, if_pos rfl]
  · intro c hmlc hgt hne hml
    rw [hmlc] at hne
    rcases hc : (categorize_by_keywords env (analyzedText vendor ocr) vendor).1 with _ | c2
    · simp only [categorize_bill, hc, hmlc, Option.isSome_none, Bool.false_and,
        Bool.false_eq_true, if_false, Option.isSome_some, Bool.true_and,
        decide_eq_true hgt, if_true]
      rw [if_neg (by rw [hc] at hne; exact hne), if_pos hml]
    · simp only [categorize_bill, hc, h8 c2 hc, hmlc, Option.isSome_some, Bool.true_and,
        Bool.and_false, Bool.false_eq_true, if_false, decide_eq_true hgt, if_true]
      rw [if_neg (by rw [hc] at hne; exact hne), if_pos hml]
  · intro c hmlc hgt hne hml
    rw [hmlc] at hne
    rcases hc : (categorize_by_keywords env (analyzedText vendor ocr) vendor).1 with _ | c2
    · simp only [categorize_bill, hc, hmlc, Option.isSome_none, Bool.false_and,
        Bool.false_eq_true, if_false, Option.isSome_some, Bool.true_and,
        decide_eq_true hgt, if_true]
      rw [if_neg (by rw [hc] at hne; exact hne), if_neg hml]
    · simp only [categorize_bill, hc, h8 c2 hc, hmlc, Option.isSome_some, Bool.true_and,
        Bool.and_false, Bool.false_eq_true, if_false, decide_eq_true hgt, if_true]
      rw [if_neg (by rw [hc] at hne; exact hne), if_neg hml]
  · intro hle
    have hd : decide (mlConf > 1 / 2) = false := decide_eq_false (not_lt.mpr hle)
    constructor
    · intro c hcsv
      simp only [categorize_bill, hcsv, h8 c hcsv, hd, Option.isSome_some, Bool.true_and,
        Bool.and_false, Bool.false_eq_true, if_false, if_true]
    · intro hcsv
      simp only [categorize_bill, hcsv, hd, Option.isSome_none, Bool.false_and,
        Bool.and_false, Bool.false_eq_true, if_false]

/-- Witness for C2: a vendor map entry at confidence 0.7 (below the 0.8
gate) agreeing with a model prediction at confidence 0.6 yields the
agreement boost min(max(0.7, 0.6) * 1.1, 0.99) = 0.77. -/
theorem ml_cascade_rules_witness :
    categorize_bill ⟨[⟨ofS "starbucks", "Food", 7 / 10⟩], [⟨"Food", "coffee"⟩]⟩
        (some (ofS "Starbucks")) (ofS "x")
        (some (some ⟨"Food", "coffee"⟩, 3 / 5)) =
      ⟨some ⟨"Food", "coffee"⟩,
        min (max ((7 : ℚ) / 10) (3 / 5) * (11 / 10)) (99 / 100),
        some Meth.csv_ml_agreement⟩ ∧
    min (max ((7 : ℚ) / 10) (3 / 5) * (11 / 10)) (99 / 100) = 77 / 100 := by
  constructor
  · have hp : categorize_by_keywords
        ⟨[⟨ofS "starbucks", "Food", 7 / 10⟩], [⟨"Food", "coffee"⟩]⟩
        (analyzedText (some (ofS "Starbucks")) (ofS "x")) (some (ofS "Starbucks")) =
        (some ⟨"Food", "coffee"⟩, 7 / 10) := rfl
    exact (ml_cascade_rules ⟨[⟨ofS "starbucks", "Food", 7 / 10⟩], [⟨"Food", "coffee"⟩]⟩
        (some (ofS "Starbucks")) (ofS "x") (some ⟨"Food", "coffee"⟩) (3 / 5)
        (Or.inr (by rw [hp]; norm_num))).1 ⟨"Food", "coffee"⟩ rfl (by rw [hp])
        (by norm_num)
  · norm_num

/-- Claim C6: the keyword-fallback tier caps its confidence at 0.95 using
the formula min(best score times 0.8, 0.95), and categorization results at
confidence of at most 0.3 are never committed to the record, neither by
categorize_bill nor by the serializer. -/
theorem keyword_cap_and_commit :
    (∀ (env : Env) (text : Str) (vendor : Option Str),
      vendorTier env vendor = none →
        (categorize_by_keywords env text vendor).2 ≤ 95 / 100 ∧
        (text ≠ [] →
          (categorize_by_keywords env text vendor).2 =
            min ((kwBest env (lowerL text)).2 * (8 / 10)) (95 / 100))) ∧
    (∀ r : CatResult, r.confidence ≤ 3 / 10 → commitCategory r = none) ∧
    (∀ (env : Env) (vendor : Option Str) (ocr : Str),
      (categorize_by_keywords env (analyzedText vendor ocr) vendor).2 ≤ 3 / 10 →
      serializerCommit env vendor ocr = none) := by
  refine ⟨?_, ?_, ?_⟩
  · intro env text vendor hvt
    cases text with
    | nil =>
      refine ⟨?_, fun hne => absurd rfl hne⟩
      simp only [categorize_by_keywords, List.isEmpty_nil, if_true]
      norm_num
    | cons c t =>
      have hne : ((c :: t : Str)).isEmpty = false := rfl
      constructor
      · simp only [categorize_by_keywords, hne, Bool.false_eq_true, if_false, hvt]
        exact min_le_right _ _
      · intro _
        simp only [categorize_by_keywords, hne, Bool.false_eq_true, if_false, hvt]
  · intro r h
    unfold commitCategory
    cases hc : r.category with
    | none => rfl
    | some c =>
      dsimp only
      rw [if_neg (not_lt.mpr h)]
  · intro env vendor ocr h
    cases hp : (categorize_by_keywords env (analyzedText vendor ocr) vendor).1 with
    | none => simp only [serializerCommit, hp]
    | some c =>
      simp only [serializerCommit, hp]
      rw [if_neg (not_lt.mpr h)]

/-- Witness for C6: an empty engine keeps the keyword-tier confidence at
most 0.95; a result at confidence 0 is not committed; a vendor-map hit at
confidence 0.2 is below the 0.3 threshold and the serializer leaves the
bill uncategorized. -/
theorem keyword_cap_and_commit_witness :
    (categorize_by_keywords ⟨[], []⟩ (ofS "x") none).2 ≤ 95 / 100 ∧
    commitCategory ⟨none, 0, none⟩ = none ∧
    serializerCommit ⟨[⟨ofS "acme", "Misc", 1 / 5⟩], [⟨"Misc", ""⟩]⟩
      (some (ofS "Acme")) (ofS "t") = none := by
  refine ⟨(keyword_cap_and_commit.1 ⟨[], []⟩ (ofS "x") none rfl).1,
    keyword_cap_and_commit.2.1 ⟨none, 0, none⟩ (by norm_num),
    keyword_cap_and_commit.2.2 _ _ _ ?_⟩
  have hp : categorize_by_keywords ⟨[⟨ofS "acme", "Misc", 1 / 5⟩], [⟨"Misc", ""⟩]⟩
      (analyzedText (some (ofS "Acme")) (ofS "t")) (some (ofS "Acme")) =
      (some ⟨"Misc", ""⟩, 1 / 5) := rfl
  rw [hp]
  norm_num

/-- The strictly-improving fold of the keyword tier never drops below its
starting score. -/
theorem kwFold_nonneg (tl : Str) (l : List Category) :
    ∀ init : Option Category × ℚ, 0 ≤ init.2 →
      0 ≤ (l.foldl (fun best c =>
        if kwScore tl (getKeywordsList c) > best.2 then
          (some c, kwScore tl (getKeywordsList c))
        else best) init).2 := by
  induction l with
  | nil => intro init h; exact h
  | cons c l ih =>
    intro init h
    simp only [List.foldl_cons]
    apply ih
    by_cases hs : kwScore tl (getKeywordsList c) > init.2
    · rw [if_pos hs]
      exact le_of_lt (lt_of_le_of_lt h hs)
    · rw [if_neg hs]
      exact h

theorem kwBest_nonneg (env : Env) (tl : Str) : 0 ≤ (kwBest env tl).2 := by
  unfold kwBest
  exact kwFold_nonneg tl _ (none, 0) le_rfl

/-- The exact CSV tier only ever reports a confidence configured on some
mapping row. -/
theorem exactTier_mem (env : Env) (vl : Str) (c : Category) (q : ℚ)
    (h : exactTier env vl = some (c, q)) : ∃ m ∈ env.mappings, q = m.confidence := by
  unfold exactTier at h
  cases hf : env.mappings.find? (fun m => m.vendor = vl) with
  | none => rw [hf] at h; exact absurd h (by simp)
  | some m =>
    rw [hf] at h
    dsimp only at h
    cases hc : findCat env m.category with
    | none => rw [hc] at h; exact absurd h (by simp)
    | some cat =>
      rw [hc] at h
      simp at h
      exact ⟨m, List.mem_of_find?_eq_some hf, h.2.symm⟩

/-- The substring CSV tier only ever reports nine tenths of a configured
confidence. -/
theorem looseTier_mem (env : Env) (vl : Str) (c : Category) (q : ℚ) :
    ∀ l : List VMap, looseTier env vl l = some (c, q) →
      ∃ m ∈ l, q = m.confidence * (9 / 10) := by
  intro l
  induction l with
  | nil => intro h; exact absurd h (by simp [looseTier])
  | cons m rest ih =>
    intro h
    unfold looseTier at h
    by_cases hc : (containsL m.vendor vl || containsL vl m.vendor) = true
    · rw [if_pos hc] at h
      cases hf : findCat env m.category with
      | none =>
        rw [hf] at h
        obtain ⟨m2, hm2, hq⟩ := ih h
        exact ⟨m2, List.mem_cons_of_mem m hm2, hq⟩
      | some cat =>
        rw [hf] at h
        simp only [Option.some.injEq, Prod.mk.injEq] at h
        exact ⟨m, List.mem_cons_self m rest, h.2.symm⟩
    · rw [if_neg hc] at h
      obtain ⟨m2, hm2, hq⟩ := ih h
      exact ⟨m2, List.mem_cons_of_mem m hm2, hq⟩

/-- Any confidence produced by the CSV vendor tier lies in the unit
interval when the configured confidences do. -/
theorem vendorTier_bounds (env : Env) (vendor : Option Str) (c : Category) (q : ℚ)
    (hmap : ∀ m ∈ env.mappings, 0 ≤ m.confidence ∧ m.confidence ≤ 1)
    (h : vendorTier env vendor = some (c, q)) : 0 ≤ q ∧ q ≤ 1 := by
  unfold vendorTier at h
  cases vendor with
  | none => exact absurd h (by simp)
  | some v =>
    dsimp only at h
    by_cases hv : v.isEmpty = true
    · rw [if_pos hv] at h
      exact absurd h (by simp)
    · rw [if_neg hv] at h
      cases he : exactTier env (stripL (lowerL v)) with
      | some pr =>
        rw [he, orO_some] at h
        obtain ⟨m, hm, hq⟩ := exactTier_mem env (stripL (lowerL v)) c q (by rw [he, ← h])
        rw [hq]
        exact hmap m hm
      | none =>
        rw [he, orO_none] at h
        obtain ⟨m, hm, hq⟩ := looseTier_mem env (stripL (lowerL v)) c q env.mappings h
        rw [hq]
        constructor
        · exact mul_nonneg (hmap m hm).1 (by norm_num)
        · calc m.confidence * (9 / 10) ≤ 1 * (9 / 10) :=
            mul_le_mul_of_nonneg_right (hmap m hm).2 (by norm_num)
          _ ≤ 1 := by norm_num

/-- Any confidence produced by categorize_by_keywords lies in the unit
interval when the configured confidences do. -/
theorem catkw_bounds (env : Env) (text : Str) (vendor : Option Str)
    (hmap : ∀ m ∈ env.mappings, 0 ≤ m.confidence ∧ m.confidence ≤ 1) :
    0 ≤ (categorize_by_keywords env text vendor).2 ∧
      (categorize_by_keywords env text vendor).2 ≤ 1 := by
  unfold categorize_by_keywords
  by_cases ht : text.isEmpty = true
  · rw [if_pos ht]
    norm_num
  · rw [if_neg ht]
    cases hv : vendorTier env vendor with
    | some pr =>
      obtain ⟨c, q⟩ := pr
      dsimp only
      exact vendorTier_bounds env vendor c q hmap hv
    | none =>
      dsimp only
      constructor
      · exact le_min (mul_nonneg (kwBest_nonneg env (lowerL text)) (by norm_num))
          (by norm_num)
      · exact (min_le_right _ _).trans (by norm_num)

/-- Any confidence produced by the categorize_bill cascade lies in the
unit interval, and the agreement branch is capped at 0.99. -/
theorem catbill_bounds (env : Env) (vendor : Option Str) (ocr : Str)
    (ml : Option (Option Category × ℚ))
    (hmap : ∀ m ∈ env.mappings, 0 ≤ m.confidence ∧ m.confidence ≤ 1)
    (hml : ∀ pr, ml = some pr → 0 ≤ pr.2 ∧ pr.2 ≤ 1) :
    0 ≤ (categorize_bill env vendor ocr ml).confidence ∧
      (categorize_bill env vendor ocr ml).confidence ≤ 1 ∧
      ((categorize_bill env vendor ocr ml).method = some Meth.csv_ml_agreement →
        (categorize_bill env vendor ocr ml).confidence ≤ 99 / 100) := by
  have hq := catkw_bounds env (analyzedText vendor ocr) vendor hmap
  unfold categorize_bill
  dsimp only
  by_cases hgate :
      ((categorize_by_keywords env (analyzedText vendor ocr) vendor).1.isSome &&
        decide ((categorize_by_keywords env (analyzedText vendor ocr) vendor).2 > 8 / 10)) =
        true
  · rw [if_pos hgate]
    exact ⟨hq.1, hq.2, fun hx => absurd hx (by simp)⟩
  · rw [if_neg hgate]
    cases ml with
    | none =>
      dsimp only
      by_cases hc :
          (categorize_by_keywords env (analyzedText vendor ocr) vendor).1.isSome = true
      · rw [if_pos hc]
        exact ⟨hq.1, hq.2, fun hx => absurd hx (by simp)⟩
      · rw [if_neg hc]
        exact ⟨le_rfl, by norm_num, fun hx => absurd hx (by simp)⟩
    | some pr =>
      obtain ⟨mlCat, mlConf⟩ := pr
      have hmlb := hml (mlCat, mlConf) rfl
      dsimp only at hmlb ⊢
      by_cases hin : (mlCat.isSome && decide (mlConf > 1 / 2)) = true
      · rw [if_pos hin]
        by_cases hag :
            (categorize_by_keywords env (analyzedText vendor ocr) vendor).1 = mlCat
        · rw [if_pos hag]
          refine ⟨?_, ?_, fun _ => ?_⟩
          · exact le_min
              (mul_nonneg (le_trans hq.1 (le_max_left _ _)) (by norm_num)) (by norm_num)
          · exact (min_le_right _ _).trans (by norm_num)
          · exact min_le_right _ _
        · rw [if_neg hag]
          by_cases hcmp :
              mlConf > (categorize_by_keywords env (analyzedText vendor ocr) vendor).2
          · rw [if_pos hcmp]
            exact ⟨hmlb.1, hmlb.2, fun hx => absurd hx (by simp)⟩
          · rw [if_neg hcmp]
            exact ⟨hq.1, hq.2, fun hx => absurd hx (by simp)⟩
      · rw [if_neg hin]
        by_cases hc :
            (categorize_by_keywords env (analyzedText vendor ocr) vendor).1.isSome = true
        · rw [if_pos hc]
          exact ⟨hq.1, hq.2, fun hx => absurd hx (by simp)⟩
        · rw [if_neg hc]
          exact ⟨le_rfl, by norm_num, fun hx => absurd hx (by simp)⟩

/-- Claim C9: every confidence the categorization engine produces (exact
CSV mapping, partial CSV mapping at 0.9x, model prediction, agreement
boost, keyword fallback) lies in the unit interval, given the documented
contracts that mapping confidences and model probabilities do; and the
agreement-boosted confidence never exceeds 0.99. -/
theorem confidence_unit_interval (env : Env) (text : Str) (vendor ven2 : Option Str)
    (ocr : Str) (ml : Option (Option Category × ℚ))
    (hmap : ∀ m ∈ env.mappings, 0 ≤ m.confidence ∧ m.confidence ≤ 1)
    (hml : ∀ pr, ml = some pr → 0 ≤ pr.2 ∧ pr.2 ≤ 1) :
    (0 ≤ (categorize_by_keywords env text vendor).2 ∧
      (categorize_by_keywords env text vendor).2 ≤ 1) ∧
    (0 ≤ (categorize_bill env ven2 ocr ml).confidence ∧
      (categorize_bill env ven2 ocr ml).confidence ≤ 1) ∧
    ((categorize_bill env ven2 ocr ml).method = some Meth.csv_ml_agreement →
      (categorize_bill env ven2 ocr ml).confidence ≤ 99 / 100) := by
  have h := catbill_bounds env ven2 ocr ml hmap hml
  exact ⟨catkw_bounds env text vendor hmap, ⟨h.1, h.2.1⟩, h.2.2⟩

/-- Witness for C9 at a one-row vendor map of confidence one half and an
agreeing model at confidence three fifths. -/
theorem confidence_unit_interval_witness :
    (0 ≤ (categorize_by_keywords ⟨[⟨ofS "a", "X", 1 / 2⟩], [⟨"X", ""⟩]⟩ (ofS "t") none).2 ∧
      (categorize_by_keywords ⟨[⟨ofS "a", "X", 1 / 2⟩], [⟨"X", ""⟩]⟩ (ofS "t") none).2 ≤ 1) ∧
    (0 ≤ (categorize_bill ⟨[⟨ofS "a", "X", 1 / 2⟩], [⟨"X", ""⟩]⟩ (some (ofS "a")) (ofS "z")
        (some (some ⟨"X", ""⟩, 3 / 5))).confidence ∧
      (categorize_bill ⟨[⟨ofS "a", "X", 1 / 2⟩], [⟨"X", ""⟩]⟩ (some (ofS "a")) (ofS "z")
        (some (some ⟨"X", ""⟩, 3 / 5))).confidence ≤ 1) ∧
    ((categorize_bill ⟨[⟨ofS "a", "X", 1 / 2⟩], [⟨"X", ""⟩]⟩ (some (ofS "a")) (ofS "z")
        (some (some ⟨"X", ""⟩, 3 / 5))).method = some Meth.csv_ml_agreement →
      (categorize_bill ⟨[⟨ofS "a", "X", 1 / 2⟩], [⟨"X", ""⟩]⟩ (some (ofS "a")) (ofS "z")
        (some (some ⟨"X", ""⟩, 3 / 5))).confidence ≤ 99 / 100) := by
  refine confidence_unit_interval ⟨[⟨ofS "a", "X", 1 / 2⟩], [⟨"X", ""⟩]⟩ (ofS "t") none
    (some (ofS "a")) (ofS "z") (some (some ⟨"X", ""⟩, 3 / 5)) ?_ ?_
  · intro m hm
    simp only [List.mem_singleton] at hm
    rw [hm]
    norm_num
  · intro pr h
    rw [← Option.some.inj h]
    norm_num

/-- Claim C4: field extraction is modelled by total functions, so every
input yields a record; and each field whose patterns find no match in the
input is none rather than any default value.  The hypotheses of each
conjunct say exactly that the patterns feeding that field failed to
match. -/
theorem unmatched_fields_are_none (t : Str) :
    ((searchP grandTotalPat (lowerL t) = none) →
      (searchP totalAmountPat (lowerL t) = none) →
      (searchP inWordsPat (lowerL t) = none) →
      (searchP totalBarPat (lowerL t) = none) →
      (∀ P ∈ amountPats, allCaps P (lowerL t) = []) →
      (extract_bill_data t).amount = none) ∧
    ((searchP cgstPat (lowerL t) = none) → (searchP sgstPat (lowerL t) = none) →
      (∀ P ∈ taxPats, searchP P (lowerL t) = none) →
      (extract_bill_data t).tax_amount = none) ∧
    (((((splitNl t).take 15).enum).filterMap (fun p => lineScore p.1 p.2) = []) →
      (extract_bill_data t).vendor = none) ∧
    ((∀ P ∈ datePats, searchP P (lowerL t) = none) →
      (extract_bill_data t).bill_date = none) ∧
    ((∀ l ∈ splitNl t, searchP decNumPat l = none) →
      (extract_bill_data t).line_items = []) ∧
    ((∀ P ∈ invPats, searchP P (lowerL t) = none) →
      (extract_bill_data t).invoice_number = none) ∧
    ((searchP gstinPat1 t = none) → (searchP gstinPat2 t = none) →
      (extract_bill_data t).gstin = none) ∧
    ((∀ P ∈ subtotalPats, searchP P (lowerL t) = none) →
      (extract_bill_data t).subtotal = none) ∧
    ((searchP cgstPat (lowerL t) = none) → (extract_bill_data t).cgst = none) ∧
    ((searchP sgstPat (lowerL t) = none) → (extract_bill_data t).sgst = none) := by
  refine ⟨?_, ?_, ?_, ?_, ?_, ?_, ?_, ?_, ?_, ?_⟩
  · intro h1 h2 h3 h4 h5
    have hg : amountStepGrand (lowerL t) = none := by
      simp only [amountStepGrand, h1, Option.map_none']
    have hta : amountStepTA (lowerL t) = none := by
      simp only [amountStepTA, h2, Option.map_none']
    have hw : amountStepWords (lowerL t) = none := by
      simp only [amountStepWords, h3, Option.none_bind]
    have hb : amountStepBar (lowerL t) = none := by
      simp only [amountStepBar, h4, Option.map_none']
    have hfl : ((amountPats.map (fun P => allCaps P (lowerL t))).flatten) = [] := by
      apply flattenNil
      intro l hl
      obtain ⟨P, hP, rfl⟩ := List.mem_map.1 hl
      exact h5 P hP
    have hm : amountStepMax (lowerL t) = none := by
      unfold amountStepMax
      rw [hfl]
      rfl
    simp only [extract_bill_data, extract_amount, hg, hta, hw, hb, orO_none]
    exact hm
  · intro h1 h2 h3
    have hc : extract_cgst (lowerL t) = none := by
      simp only [extract_cgst, h1, Option.map_none']
    have hs : extract_sgst (lowerL t) = none := by
      simp only [extract_sgst, h2, Option.map_none']
    simp only [extract_bill_data, extract_tax, hc, hs, pyTruthyQ, Bool.and_self,
      Bool.false_eq_true, if_false]
    exact firstCapQ_none taxPats (lowerL t) h3
  · intro h
    simp only [extract_bill_data, extract_vendor, h, List.foldl_nil, Option.map_none']
  · intro h
    simp only [extract_bill_data, extract_date]
    exact dateLoop_none datePats (lowerL t) h
  · intro h
    simp only [extract_bill_data, extract_line_items]
    rw [liGo_nil (splitNl t) false h]
    rfl
  · intro h
    simp only [extract_bill_data, extract_invoice_number]
    exact invGo_none invPats (lowerL t) h
  · intro h1 h2
    simp only [extract_bill_data, extract_gstin, h1, h2, Option.map_none']
  · intro h
    simp only [extract_bill_data, extract_subtotal]
    exact firstCapQ_none subtotalPats (lowerL t) h
  · intro h
    simp only [extract_bill_data, extract_cgst, h, Option.map_none']
  · intro h
    simp only [extract_bill_data, extract_sgst, h, Option.map_none']

/-- Witness for C4 at a text matching no pattern at all: every optional
field of the returned record is none and the item list is empty. -/
theorem unmatched_fields_are_none_witness :
    (extract_bill_data (ofS "qqq zzz")).amount = none ∧
    (extract_bill_data (ofS "qqq zzz")).tax_amount = none ∧
    (extract_bill_data (ofS "qqq zzz")).vendor = none ∧
    (extract_bill_data (ofS "qqq zzz")).bill_date = none ∧
    (extract_bill_data (ofS "qqq zzz")).line_items = [] ∧
    (extract_bill_data (ofS "qqq zzz")).invoice_number = none ∧
    (extract_bill_data (ofS "qqq zzz")).gstin = none ∧
    (extract_bill_data (ofS "qqq zzz")).subtotal = none ∧
    (extract_bill_data (ofS "qqq zzz")).cgst = none ∧
    (extract_bill_data (ofS "qqq zzz")).sgst = none := by
  have h := unmatched_fields_are_none (ofS "qqq zzz")
  exact ⟨h.1 (by decide) (by decide) (by decide) (by decide) (by decide),
    h.2.1 (by decide) (by decide) (by decide),
    h.2.2.1 (by decide),
    h.2.2.2.1 (by decide),
    h.2.2.2.2.1 (by decide),
    h.2.2.2.2.2.1 (by decide),
    h.2.2.2.2.2.2.1 (by decide) (by decide),
    h.2.2.2.2.2.2.2.1 (by decide),
    h.2.2.2.2.2.2.2.2.1 (by decide),
    h.2.2.2.2.2.2.2.2.2 (by decide)⟩

end HX
